import Mathlib

/-!
Verification of the btc-savings-plan-service core control loop.

This file gives a shallow embedding of the scan-dispatch-execute-reschedule
logic of the repository:

* `lambda/scheduler/scanner.ts` (Scanner: query due plans, conditional status
  update, enqueue, publish, rollback, run-level failure signalling),
* `lambda/transaction/executor.ts` (Executor: max-retries handling, plan load,
  status transitions, purchase, transaction recording, rescheduling,
  event publishing, `calculateNextExecutionTime`),
* `lambda/transaction/exchange-client.ts` (exchange client: purchase
  result construction, error conversion, credential fallback),
* `lambda/scheduler/types.ts` (data model).

Timestamps are modelled as integers (milliseconds since the Unix epoch where
the source uses JavaScript `Date` values, seconds where the source stores
`nextExecutionTime`).  Lambda runs with TZ=UTC, so the `Date` accessors
(`getDate`, `setDate`, `getMonth`, `setMonth`) are modelled by the ECMAScript
UTC calendar functions (`MakeDay`, `MakeDate`, `DateFromTime`, ...), which we
implement with the standard civil-calendar conversions.  Integer division `/`
on `Int` in Lean is Euclidean division, which coincides with floor division
for the positive divisors used throughout, matching ECMAScript `floor` and
`modulo` semantics.

External collaborators (DynamoDB, SQS, EventBridge, Secrets Manager) are
modelled as explicit state (lists of rows / messages / events) plus an
environment that injects the outcomes of the non-deterministic or fallible
calls (fresh UUIDs, concurrent deletions, send/publish failures, the purchase
result).
-/

/-! ## Civil calendar arithmetic (model of the ECMAScript Date calendar, UTC)

`daysFromCivil` and `civilFromDays` are the standard conversions between a
Gregorian calendar date and a day number (days since 1970-01-01).
`daysFromCivil` accepts an arbitrary (possibly out-of-range) day of month,
exactly as ECMAScript MakeDay does: day overflow rolls into the following
months. -/

/-- Day number (days since 1970-01-01) of the civil date `(y, m, d)`,
with `m ∈ 1..12` and `d` arbitrary (out-of-range days roll over). -/
def daysFromCivil (y m d : Int) : Int :=
  let yAdj := if m ≤ 2 then y - 1 else y
  let era := yAdj / 400
  let yoe := yAdj - era * 400
  let mp := if m > 2 then m - 3 else m + 9
  let doy := (153 * mp + 2) / 5 + d - 1
  let doe := yoe * 365 + yoe / 4 - yoe / 100 + doy
  era * 146097 + doe - 719468

/-- Civil date `(year, month ∈ 1..12, day ∈ 1..31)` of a day number. -/
def civilFromDays (z : Int) : Int × Int × Int :=
  let zShift := z + 719468
  let era := zShift / 146097
  let doe := zShift - era * 146097
  let yoe := (doe - doe / 1460 + doe / 36524 - doe / 146096) / 365
  let y := yoe + era * 400
  let doy := doe - (365 * yoe + yoe / 4 - yoe / 100)
  let mp := (5 * doy + 2) / 153
  let d := doy - (153 * mp + 2) / 5 + 1
  let m := if mp < 10 then mp + 3 else mp - 9
  (if m ≤ 2 then y + 1 else y, m, d)

set_option maxHeartbeats 4000000 in
/-- Core bound for the year-of-era extraction inside `civilFromDays`:
for a day-of-era in `0..146096` the computed year-of-era lies in `0..399`
and the residual day-of-year lies in `0..365`. -/
theorem yoe_doy_bounds (doe : Int) (h0 : 0 ≤ doe) (h1 : doe ≤ 146096) :
    0 ≤ (doe - doe / 1460 + doe / 36524 - doe / 146096) / 365 ∧
    (doe - doe / 1460 + doe / 36524 - doe / 146096) / 365 ≤ 399 ∧
    0 ≤ doe - (365 * ((doe - doe / 1460 + doe / 36524 - doe / 146096) / 365) +
      ((doe - doe / 1460 + doe / 36524 - doe / 146096) / 365) / 4 -
      ((doe - doe / 1460 + doe / 36524 - doe / 146096) / 365) / 100) ∧
    doe - (365 * ((doe - doe / 1460 + doe / 36524 - doe / 146096) / 365) +
      ((doe - doe / 1460 + doe / 36524 - doe / 146096) / 365) / 4 -
      ((doe - doe / 1460 + doe / 36524 - doe / 146096) / 365) / 100) ≤ 365 := by
  refine ⟨by omega, by omega, ?_⟩
  set b := (doe - doe / 1460 + doe / 36524 - doe / 146096) / 365 with hb
  have hb0 : 0 ≤ b := by omega
  have hb1 : b ≤ 399 := by omega
  interval_cases b <;> omega

/-- Technical form of the left inverse law, with every intermediate value of
`civilFromDays` named by a hypothesis. -/
theorem roundtrip_core (z zShift era doe yoe doy mp d m y : Int)
    (hz : zShift = z + 719468) (hera : era = zShift / 146097)
    (hdoe : doe = zShift - era * 146097)
    (hyoe : yoe = (doe - doe / 1460 + doe / 36524 - doe / 146096) / 365)
    (hdoy : doy = doe - (365 * yoe + yoe / 4 - yoe / 100))
    (hmp : mp = (5 * doy + 2) / 153)
    (hd : d = doy - (153 * mp + 2) / 5 + 1)
    (hm : m = if mp < 10 then mp + 3 else mp - 9)
    (hy : y = if m ≤ 2 then yoe + era * 400 + 1 else yoe + era * 400) :
    daysFromCivil y m d = z := by
  have hdoe0 : 0 ≤ doe := by omega
  have hdoe1 : doe ≤ 146096 := by omega
  have hyd := yoe_doy_bounds doe hdoe0 hdoe1
  rw [← hyoe] at hyd
  rw [← hdoy] at hyd
  obtain ⟨hy0, hy1, hd0, hd1⟩ := hyd
  have hmp_range : 0 ≤ mp ∧ mp ≤ 11 := by omega
  unfold daysFromCivil
  dsimp only
  have hyAdj : (if m ≤ 2 then y - 1 else y) = yoe + era * 400 := by
    split_ifs at hy ⊢ <;> omega
  rw [hyAdj]
  have heraEq : (yoe + era * 400) / 400 = era := by omega
  rw [heraEq]
  have hmpEq : (if m > 2 then m - 3 else m + 9) = mp := by
    split_ifs at hm ⊢ <;> omega
  rw [hmpEq]
  have hres : yoe + era * 400 - era * 400 = yoe := by ring
  rw [hres]
  omega

/-- Converting a day number to a civil date and back is the identity. -/
theorem daysFromCivil_civilFromDays (z : Int) :
    daysFromCivil (civilFromDays z).1 (civilFromDays z).2.1 (civilFromDays z).2.2 = z := by
  unfold civilFromDays
  dsimp only
  exact roundtrip_core z _ _ _ _ _ _ _ _ _ rfl rfl rfl rfl rfl rfl rfl rfl rfl

/-- The month produced by `civilFromDays` lies in `1..12`. -/
theorem civilFromDays_month_range (z : Int) :
    1 ≤ (civilFromDays z).2.1 ∧ (civilFromDays z).2.1 ≤ 12 := by
  have hd := yoe_doy_bounds (z + 719468 - (z + 719468) / 146097 * 146097)
    (by omega) (by omega)
  unfold civilFromDays
  dsimp only
  split_ifs <;> omega

/-- The day-of-month argument of `daysFromCivil` is linear: adding `k` days
to the argument adds `k` to the day number. -/
theorem daysFromCivil_day_add (y m d k : Int) :
    daysFromCivil y m (d + k) = daysFromCivil y m d + k := by
  unfold daysFromCivil
  dsimp only
  split_ifs <;> omega

/-! ## ECMAScript Date operations (UTC), as used by the Executor -/

/-- Milliseconds per day (ECMAScript msPerDay). -/
def msPerDay : Int := 86400000

/-- ECMAScript Day(t): the day number containing time value `t` (ms). -/
def jsDay (t : Int) : Int := t / msPerDay

/-- ECMAScript TimeWithinDay(t). -/
def jsTimeWithinDay (t : Int) : Int := t % msPerDay

/-- ECMAScript MakeDay(year, month, date) with 0-based month; out-of-range
months and days roll over, exactly as in the spec of `Date.prototype.setMonth`
and `setDate`. -/
def jsMakeDay (y month0 d : Int) : Int :=
  daysFromCivil (y + month0 / 12) (month0 % 12 + 1) d

/-- ECMAScript MakeDate(day, time). -/
def jsMakeDate (day time : Int) : Int := day * msPerDay + time

/-- Model of `Date.prototype.getUTCFullYear` (TZ=UTC, so `getFullYear`). -/
def jsYear (t : Int) : Int := (civilFromDays (jsDay t)).1

/-- Model of `getMonth` under UTC: 0-based month. -/
def jsMonth0 (t : Int) : Int := (civilFromDays (jsDay t)).2.1 - 1

/-- Model of `getDate` under UTC: 1-based day of month. -/
def jsGetDate (t : Int) : Int := (civilFromDays (jsDay t)).2.2

/-- Model of `setDate(d)` under UTC. -/
def jsSetDate (t d : Int) : Int :=
  jsMakeDate (jsMakeDay (jsYear t) (jsMonth0 t) d) (jsTimeWithinDay t)

/-- Model of `setMonth(m)` under UTC (0-based month, day of month kept,
overflow days roll into the following month). -/
def jsSetMonth (t month0 : Int) : Int :=
  jsMakeDate (jsMakeDay (jsYear t) month0 (jsGetDate t)) (jsTimeWithinDay t)

/-- MakeDay applied to the current year/month of `t` agrees with
`daysFromCivil` at the current civil year and month. -/
theorem jsMakeDay_current (t d : Int) :
    jsMakeDay (jsYear t) (jsMonth0 t) d =
      daysFromCivil (civilFromDays (jsDay t)).1 (civilFromDays (jsDay t)).2.1 d := by
  have hmr := civilFromDays_month_range (jsDay t)
  unfold jsMakeDay jsYear jsMonth0
  have h1 : ((civilFromDays (jsDay t)).2.1 - 1) / 12 = 0 := by omega
  have h2 : ((civilFromDays (jsDay t)).2.1 - 1) % 12 = (civilFromDays (jsDay t)).2.1 - 1 := by
    omega
  rw [h1, h2, add_zero, Int.sub_add_cancel]

/-- The JavaScript idiom `d.setDate(d.getDate() + k)` adds exactly `k` days
(`k * 86400000` ms) to the time value, in any timezone without DST (UTC). -/
theorem jsSetDate_add (t k : Int) :
    jsSetDate t (jsGetDate t + k) = t + k * msPerDay := by
  unfold jsSetDate jsMakeDate
  rw [jsMakeDay_current]
  unfold jsGetDate
  rw [daysFromCivil_day_add, daysFromCivil_civilFromDays]
  unfold jsDay jsTimeWithinDay msPerDay
  omega

/-! ## Data model (`lambda/scheduler/types.ts`) -/

/-- Possible frequencies for a savings plan (enum `SavingsPlanFrequency`). -/
inductive SavingsPlanFrequency
  | DAILY
  | WEEKLY
  | BIWEEKLY
  | MONTHLY
deriving DecidableEq, Repr

/-- Possible statuses for a savings plan (enum `SavingsPlanStatus`). -/
inductive SavingsPlanStatus
  | ACTIVE
  | PAUSED
  | PENDING_EXECUTION
  | EXECUTING
  | COMPLETED
  | CANCELLED
  | FAILED
deriving DecidableEq, Repr

/-- Status of a recorded transaction (string union in the source). -/
inductive TransactionStatus
  | PENDING
  | COMPLETED
  | FAILED
deriving DecidableEq, Repr

/-- Event types for EventBridge events (enum `EventType`). -/
inductive EventType
  | PLAN_CREATED
  | PLAN_UPDATED
  | PLAN_DELETED
  | EXECUTION_SCHEDULED
  | EXECUTION_STARTED
  | EXECUTION_COMPLETED
  | EXECUTION_FAILED
deriving DecidableEq, Repr

/-- A savings plan row (interface `SavingsPlan`).  Monetary amounts are
rationals; `nextExecutionTime` is epoch seconds. -/
structure SavingsPlan where
  userId : String
  planId : String
  amount : Rat
  frequency : SavingsPlanFrequency
  sourceOfFunds : String
  status : SavingsPlanStatus
  nextExecutionTime : Int
  startDate : String
  endDate : Option String := none
  createdAt : String
  updatedAt : String
deriving DecidableEq, Repr

/-- Transaction metadata recorded by the Executor. -/
structure TransactionMetadata where
  executionId : String
  exchangeTransactionId : Option String := none
  attemptCount : Nat
  fees : Option Rat := none
  maxRetries : Option String := none
deriving DecidableEq, Repr

/-- A transaction row (interface `SavingsPlanTransaction`). -/
structure SavingsPlanTransaction where
  userId : String
  transactionId : String
  planId : String
  amount : Rat
  bitcoinAmount : Rat
  exchangeRate : Rat
  status : TransactionStatus
  timestamp : String
  errorMessage : Option String := none
  metadata : Option TransactionMetadata := none
deriving DecidableEq, Repr

/-- A dispatch message (interface `SchedulerExecutionEvent`). -/
structure SchedulerExecutionEvent where
  userId : String
  planId : String
  executionTime : String
  executionId : String
  attemptCount : Nat
deriving DecidableEq, Repr

/-- HTTP response attached to a transport-layer (axios) error. -/
structure HttpResponseInfo where
  status : Int
  statusText : String
  responseData : String
deriving DecidableEq, Repr

/-- Structured error details built by the exchange client on failure. -/
structure PurchaseErrorDetails where
  timestamp : String
  requestId : String
  statusCode : Option Int := none
  statusText : Option String := none
  responseData : Option String := none
deriving DecidableEq, Repr

/-- A purchase result (interface `BitcoinPurchaseResult`). -/
structure BitcoinPurchaseResult where
  success : Bool
  exchangeTransactionId : Option String := none
  bitcoinAmount : Option Rat := none
  exchangeRate : Option Rat := none
  fees : Option Rat := none
  errorMessage : Option String := none
  errorDetails : Option PurchaseErrorDetails := none
deriving DecidableEq, Repr

/-- Detail payload of a published EventBridge event.  The source builds these
as ad-hoc JSON objects; absent fields are `none`. -/
structure EventDetail where
  userId : Option String := none
  planId : Option String := none
  executionId : Option String := none
  transactionId : Option String := none
  amount : Option Rat := none
  bitcoinAmount : Option Rat := none
  frequency : Option SavingsPlanFrequency := none
  scheduledTime : Option String := none
  attemptCount : Option Nat := none
  nextExecutionTime : Option Int := none
  errorMessage : Option String := none
  maxRetriesExceeded : Option Bool := none
  timestamp : Option String := none
  stage : Option String := none
deriving DecidableEq, Repr

/-- A published EventBridge event. -/
structure PublishedEvent where
  eventType : EventType
  detail : EventDetail
deriving DecidableEq, Repr

/-- An SQS FIFO message as sent by the Scanner: the execution task plus the
deduplication id (`MessageDeduplicationId`) and the ordering group
(`MessageGroupId`). -/
structure SqsMessage where
  body : SchedulerExecutionEvent
  dedupId : String
  groupId : String
deriving DecidableEq, Repr

/-! ## Plan / Transaction store operations (DynamoDB DocumentClient calls) -/

/-- DynamoDB conditional-write failure (`ConditionalCheckFailedException`). -/
inductive DbError
  | conditionalCheckFailed
deriving DecidableEq, Repr

/-- Key match for the savings-plans table (partition key `userId`,
sort key `planId`). -/
def planKeyMatches (u p : String) (q : SavingsPlan) : Bool :=
  q.userId == u && q.planId == p

/-- Model of `dynamoDB.update` with
`ConditionExpression: attribute_exists(planId)` setting `status` and
`updatedAt` (both the Scanner and the Executor use this exact call).  The
condition requires only that an item with the key exists; the stored status
is not inspected. -/
def updatePlanStatus (store : List SavingsPlan) (u p : String)
    (status : SavingsPlanStatus) (updatedAt : String) :
    Except DbError (List SavingsPlan) :=
  if store.any (planKeyMatches u p) then
    .ok (store.map fun q =>
      if planKeyMatches u p q then { q with status := status, updatedAt := updatedAt } else q)
  else
    .error .conditionalCheckFailed

/-- Model of the Executor's `updatePlanWithNextExecution`: sets
`status := ACTIVE`, `nextExecutionTime` and `updatedAt`, with
`ConditionExpression: attribute_exists(planId)`. -/
def updatePlanWithNextExecution (store : List SavingsPlan) (u p : String)
    (next : Int) (updatedAt : String) : Except DbError (List SavingsPlan) :=
  if store.any (planKeyMatches u p) then
    .ok (store.map fun q =>
      if planKeyMatches u p q then
        { q with status := .ACTIVE, nextExecutionTime := next, updatedAt := updatedAt }
      else q)
  else
    .error .conditionalCheckFailed

/-- Model of the Scanner's GSI query (`StatusNextExecutionIndex`,
`status == :status AND nextExecutionTime <= :now`, `Limit` items). -/
def queryDuePlans (store : List SavingsPlan) (now : Int) (limit : Nat) :
    List SavingsPlan :=
  (store.filter fun q =>
    q.status == SavingsPlanStatus.ACTIVE && q.nextExecutionTime ≤ now).take limit

/-- Model of `dynamoDB.get` on the savings-plans table. -/
def getSavingsPlan (store : List SavingsPlan) (u p : String) : Option SavingsPlan :=
  store.find? (planKeyMatches u p)

/-- Key match for the transactions table (partition key `userId`,
sort key `transactionId`). -/
def txnKeyMatches (u tid : String) (t : SavingsPlanTransaction) : Bool :=
  t.userId == u && t.transactionId == tid

/-- Model of `dynamoDB.put` with
`ConditionExpression: attribute_not_exists(transactionId)` on the
transactions table (the Executor's `recordTransaction`). -/
def recordTransaction (txns : List SavingsPlanTransaction)
    (t : SavingsPlanTransaction) : Except DbError (List SavingsPlanTransaction) :=
  if txns.any (txnKeyMatches t.userId t.transactionId) then
    .error .conditionalCheckFailed
  else
    .ok (txns ++ [t])

/-! ## Next-execution-time computation (`calculateNextExecutionTime`)

The source advances a JavaScript `Date` with
`setDate(getDate() + 1 | 7 | 14)` or `setMonth(getMonth() + 1)` and returns
`Math.floor(nextDate.getTime() / 1000)`.  The frequency enum is closed, so
the unsupported-frequency `throw` branch is unreachable here. -/

/-- Model of `calculateNextExecutionTime(frequency, from)`: `fromMs` is the
time value of `from` in milliseconds; the result is epoch seconds. -/
def calculateNextExecutionTime (frequency : SavingsPlanFrequency) (fromMs : Int) : Int :=
  let nextMs :=
    match frequency with
    | .DAILY => jsSetDate fromMs (jsGetDate fromMs + 1)
    | .WEEKLY => jsSetDate fromMs (jsGetDate fromMs + 7)
    | .BIWEEKLY => jsSetDate fromMs (jsGetDate fromMs + 14)
    | .MONTHLY => jsSetMonth fromMs (jsMonth0 fromMs + 1)
  nextMs / 1000

/-! ## Exchange client (`lambda/transaction/exchange-client.ts`) -/

/-- Exchange API configuration (interface `ExchangeConfig`). -/
structure ExchangeConfig where
  apiKey : String
  apiSecret : String
  baseUrl : String
  timeout : Option Int := none
  useSandbox : Option Bool := none
deriving DecidableEq, Repr

/-- The fixed demo configuration returned by `createFromSecrets` when secret
retrieval fails on the `dev` stage. -/
def demoConfig : ExchangeConfig :=
  { apiKey := "demo-key", apiSecret := "demo-secret",
    baseUrl := "https://api.example.com/exchange", useSandbox := some true }

/-- Model of `BitcoinExchangeClient.createFromSecrets`.  `secretConfig` is the
outcome of retrieving and parsing the secret: `some cfg` when
`getSecretValue` succeeded with a non-empty, parseable `SecretString`, and
`none` when any step of the `try` block threw.  The result is the
configuration of the constructed client, or `none` when the error propagates
out of the factory (aborting startup). -/
def createFromSecrets (secretConfig : Option ExchangeConfig) (stage : String) :
    Option ExchangeConfig :=
  match secretConfig with
  | some cfg => some { cfg with useSandbox := some (stage != "prod") }
  | none => if stage == "dev" then some demoConfig else none

/-- A caught JavaScript exception, as inspected by the `catch` block of
`purchaseBitcoin`: whether it is an `Error` instance (and its message), and
the attached response when `axios.isAxiosError(error) && error.response`. -/
structure JsErrorInfo where
  isErrorInstance : Bool
  message : String
  axiosResponse : Option HttpResponseInfo := none
deriving DecidableEq, Repr

/-- The error conversion performed by the `catch` block of
`purchaseBitcoin`: every caught value becomes a failed
`BitcoinPurchaseResult` with error details. -/
def purchaseErrorResult (clientRequestId nowIso : String) (e : JsErrorInfo) :
    BitcoinPurchaseResult :=
  let base : PurchaseErrorDetails := { timestamp := nowIso, requestId := clientRequestId }
  { success := false,
    errorMessage := some (if e.isErrorInstance then e.message else "Unknown error occurred"),
    errorDetails := some (match e.axiosResponse with
      | some r =>
        { base with statusCode := some r.status, statusText := some r.statusText,
                    responseData := some r.responseData }
      | none => base) }

/-- The only exception the simulated `try` block of `purchaseBitcoin` can
raise: `new Error('Exchange API temporary error')` at the 5%-failure draw. -/
def simulatedExchangeError : JsErrorInfo :=
  { isErrorInstance := true, message := "Exchange API temporary error" }

/-- Parameters of a purchase (interface `PurchaseRequest`). -/
structure PurchaseRequest where
  userId : String
  amount : Rat
  sourceOfFunds : String
  clientRequestId : String
deriving DecidableEq, Repr

/-- Outcomes of the random draws inside the simulated exchange call:
`failDraw` is `Math.random() < 0.05`; `exchangeRate` is the simulated price
`60000 + Math.random() * 10000`; `exchangeTxId` is the generated
`tx-...` identifier. -/
structure ExchangeSimDraws where
  failDraw : Bool
  exchangeRate : Rat
  exchangeTxId : String
deriving DecidableEq, Repr

/-- Model of `BitcoinExchangeClient.purchaseBitcoin`.  The function is total:
the `try` block either returns the simulated success result or raises the
simulated error, which the `catch` block converts via
`purchaseErrorResult`, so a `BitcoinPurchaseResult` is always returned. -/
def purchaseBitcoin (req : PurchaseRequest) (nowIso : String)
    (draws : ExchangeSimDraws) : BitcoinPurchaseResult :=
  if draws.failDraw then
    purchaseErrorResult req.clientRequestId nowIso simulatedExchangeError
  else
    { success := true,
      exchangeTransactionId := some draws.exchangeTxId,
      bitcoinAmount := some (req.amount / draws.exchangeRate),
      exchangeRate := some draws.exchangeRate,
      fees := some (req.amount / 100) }

/-! ## Scanner (`lambda/scheduler/scanner.ts`) -/

/-- Environment of one Scanner run: the clock, configuration, the UUIDs
generated per plan, and the outcomes of the fallible external calls.
`deletedBetween` injects a concurrent external deletion of a plan happening
between the GSI query and the per-plan conditional update (the only way the
update's `attribute_exists` precondition can fail). -/
structure ScannerEnv where
  now : Int
  batchSize : Nat
  currentTime : String
  execId : String → String → String
  deletedBetween : String → String → Bool
  sqsFails : String → String → Bool
  publishFails : String → String → Bool

/-- Mutable world of a Scanner run: the plans table, the SQS queue, and the
published events. -/
structure ScanState where
  store : List SavingsPlan
  queue : List SqsMessage
  events : List PublishedEvent
deriving DecidableEq, Repr

/-- Why processing of a single plan rejected. -/
inductive ScanStepError
  | preconditionFailed
  | sqsSendFailed
  | publishFailed
deriving DecidableEq, Repr

/-- The `catch`-block compensation of `processPlansForExecution`: try to set
the plan status back to ACTIVE, swallowing a failure of the revert itself. -/
def bestEffortRevert (store : List SavingsPlan) (u p ts : String) :
    List SavingsPlan :=
  match updatePlanStatus store u p .ACTIVE ts with
  | .ok reverted => reverted
  | .error _ => store

/-- Model of `processPlansForExecution(plan)`: conditional update to
PENDING_EXECUTION, SQS send (dedup by executionId, grouped by userId),
EXECUTION_SCHEDULED publish; on any failure after the update, best-effort
revert to ACTIVE and rethrow. -/
def processPlanForExecution (env : ScannerEnv) (s : ScanState)
    (plan : SavingsPlan) : ScanState × Option ScanStepError :=
  let executionId := env.execId plan.userId plan.planId
  match updatePlanStatus s.store plan.userId plan.planId .PENDING_EXECUTION env.currentTime with
  | .error _ =>
    ({ s with store := bestEffortRevert s.store plan.userId plan.planId env.currentTime },
     some .preconditionFailed)
  | .ok store1 =>
    if env.sqsFails plan.userId plan.planId then
      ({ s with store := bestEffortRevert store1 plan.userId plan.planId env.currentTime },
       some .sqsSendFailed)
    else
      let msg : SqsMessage :=
        { body := { userId := plan.userId, planId := plan.planId,
                    executionTime := env.currentTime, executionId := executionId,
                    attemptCount := 0 },
          dedupId := executionId, groupId := plan.userId }
      if env.publishFails plan.userId plan.planId then
        ({ store := bestEffortRevert store1 plan.userId plan.planId env.currentTime,
           queue := s.queue ++ [msg], events := s.events }, some .publishFailed)
      else
        ({ store := store1,
           queue := s.queue ++ [msg],
           events := s.events ++
             [{ eventType := .EXECUTION_SCHEDULED,
                detail := { userId := some plan.userId, planId := some plan.planId,
                            executionId := some executionId, amount := some plan.amount,
                            frequency := some plan.frequency,
                            scheduledTime := some env.currentTime } }] },
         none)

/-- Sequential model of the per-plan fan-out joined by
`Promise.allSettled`: each plan is processed independently, results are
aggregated into a rejection count. -/
def processAllPlans (env : ScannerEnv) (s : ScanState) :
    List SavingsPlan → ScanState × Nat
  | [] => (s, 0)
  | plan :: rest =>
    let step := processPlanForExecution env s plan
    let restResult := processAllPlans env step.1 rest
    (restResult.1, (if step.2.isSome then 1 else 0) + restResult.2)

/-- Model of the Scanner Lambda `handler`: query due plans (capped at the
batch size), process each, and throw (second component `true`) when any
plan's processing rejected. -/
def scannerHandler (env : ScannerEnv) (store : List SavingsPlan) :
    ScanState × Bool :=
  let due := queryDuePlans store env.now env.batchSize
  if due.isEmpty then ({ store := store, queue := [], events := [] }, false)
  else
    let storeAtProcessing :=
      store.filter fun q => !(env.deletedBetween q.userId q.planId)
    let result := processAllPlans env
      { store := storeAtProcessing, queue := [], events := [] } due
    (result.1, result.2 != 0)

/-! ## Executor (`lambda/transaction/executor.ts`) -/

/-- Environment of one task execution: configuration, clock, the generated
transaction id, the purchase result returned by the exchange client, and the
outcomes of the EventBridge publishes. -/
structure ExecutorEnv where
  maxRetries : Nat
  maxRetriesStr : String
  nowMs : Int
  nowIso : String
  stage : String
  freshTransactionId : String
  purchaseResult : BitcoinPurchaseResult
  pubFails : EventType → Bool

/-- Mutable world of the Executor: the plans table, the transactions table,
and the published events. -/
structure ExecutorState where
  plans : List SavingsPlan
  txns : List SavingsPlanTransaction
  events : List PublishedEvent
deriving DecidableEq, Repr

/-- The exception (if any) propagating out of `processExecutionEvent`; a
thrown exception makes the handler report the record in
`batchItemFailures`, triggering SQS redelivery. -/
inductive ExecError
  | planNotFound
  | conditionalCheckFailed
  | transactionIdExists
  | publishFailed
  | purchaseFailed (errorMessage : Option String)
deriving DecidableEq, Repr

/-- Outcome of processing one task: final stores and events, the propagated
exception (`none` means the task is acknowledged), and whether the Exchange
Client was invoked. -/
structure ExecResult where
  plans : List SavingsPlan
  txns : List SavingsPlanTransaction
  events : List PublishedEvent
  thrown : Option ExecError
  exchangeCalled : Bool
deriving DecidableEq, Repr

/-- Model of the Executor's `publishEvent`: `eventBridge.putEvents` with the
detail payload augmented by `timestamp` and `stage`.  The call is awaited and
NOT wrapped in try/catch, so a failure propagates to the caller. -/
def publishEvent (env : ExecutorEnv) (events : List PublishedEvent)
    (ty : EventType) (detail : EventDetail) : Except Unit (List PublishedEvent) :=
  if env.pubFails ty then .error ()
  else .ok (events ++
    [{ eventType := ty,
       detail := { detail with timestamp := some env.nowIso, stage := some env.stage } }])

/-- Model of `handleMaxRetries(event)`: load the plan (propagating the
plan-not-found error if absent), force status FAILED, record a synthetic
FAILED transaction, publish EXECUTION_FAILED with `maxRetriesExceeded: true`,
and return without throwing.  Errors inside are caught, logged and
re-thrown. -/
def handleMaxRetries (env : ExecutorEnv) (s : ExecutorState)
    (ev : SchedulerExecutionEvent) : ExecResult :=
  match getSavingsPlan s.plans ev.userId ev.planId with
  | none =>
    { plans := s.plans, txns := s.txns, events := s.events,
      thrown := some .planNotFound, exchangeCalled := false }
  | some plan =>
    match updatePlanStatus s.plans plan.userId plan.planId .FAILED env.nowIso with
    | .error _ =>
      { plans := s.plans, txns := s.txns, events := s.events,
        thrown := some .conditionalCheckFailed, exchangeCalled := false }
    | .ok plans1 =>
      let txn : SavingsPlanTransaction :=
        { userId := plan.userId, transactionId := env.freshTransactionId,
          planId := plan.planId, amount := plan.amount,
          bitcoinAmount := 0, exchangeRate := 0,
          status := .FAILED, timestamp := env.nowIso,
          errorMessage := some ("Maximum retry attempts (" ++ env.maxRetriesStr ++ ") exceeded"),
          metadata := some { executionId := ev.executionId,
                             attemptCount := ev.attemptCount,
                             maxRetries := some env.maxRetriesStr } }
      match recordTransaction s.txns txn with
      | .error _ =>
        { plans := plans1, txns := s.txns, events := s.events,
          thrown := some .transactionIdExists, exchangeCalled := false }
      | .ok txns1 =>
        match publishEvent env s.events .EXECUTION_FAILED
          { userId := some plan.userId, planId := some plan.planId,
            executionId := some ev.executionId,
            transactionId := some txn.transactionId,
            amount := some plan.amount, errorMessage := txn.errorMessage,
            attemptCount := some ev.attemptCount,
            maxRetriesExceeded := some true } with
        | .error _ =>
          { plans := plans1, txns := txns1, events := s.events,
            thrown := some .publishFailed, exchangeCalled := false }
        | .ok events1 =>
          { plans := plans1, txns := txns1, events := events1,
            thrown := none, exchangeCalled := false }

/-- Model of `processExecutionEvent(record)`: the per-task algorithm of the
Executor.  Thrown errors propagate to the handler, which adds the record to
`batchItemFailures` (SQS redelivery). -/
def processExecutionEvent (env : ExecutorEnv) (s : ExecutorState)
    (ev : SchedulerExecutionEvent) : ExecResult :=
  if ev.attemptCount ≥ env.maxRetries then
    handleMaxRetries env s ev
  else
    match getSavingsPlan s.plans ev.userId ev.planId with
    | none =>
      { plans := s.plans, txns := s.txns, events := s.events,
        thrown := some .planNotFound, exchangeCalled := false }
    | some plan =>
      match updatePlanStatus s.plans plan.userId plan.planId .EXECUTING env.nowIso with
      | .error _ =>
        { plans := s.plans, txns := s.txns, events := s.events,
          thrown := some .conditionalCheckFailed, exchangeCalled := false }
      | .ok plans1 =>
        match publishEvent env s.events .EXECUTION_STARTED
          { userId := some plan.userId, planId := some plan.planId,
            executionId := some ev.executionId, amount := some plan.amount,
            attemptCount := some ev.attemptCount } with
        | .error _ =>
          { plans := plans1, txns := s.txns, events := s.events,
            thrown := some .publishFailed, exchangeCalled := false }
        | .ok events1 =>
          let pr := env.purchaseResult
          let txn : SavingsPlanTransaction :=
            { userId := plan.userId, transactionId := env.freshTransactionId,
              planId := plan.planId, amount := plan.amount,
              bitcoinAmount := pr.bitcoinAmount.getD 0,
              exchangeRate := pr.exchangeRate.getD 0,
              status := if pr.success then .COMPLETED else .FAILED,
              timestamp := env.nowIso,
              errorMessage := pr.errorMessage,
              metadata := some { executionId := ev.executionId,
                                 exchangeTransactionId := pr.exchangeTransactionId,
                                 attemptCount := ev.attemptCount,
                                 fees := pr.fees } }
          match recordTransaction s.txns txn with
          | .error _ =>
            { plans := plans1, txns := s.txns, events := events1,
              thrown := some .transactionIdExists, exchangeCalled := true }
          | .ok txns1 =>
            if pr.success then
              let next := calculateNextExecutionTime plan.frequency env.nowMs
              match updatePlanWithNextExecution plans1 plan.userId plan.planId next env.nowIso with
              | .error _ =>
                { plans := plans1, txns := txns1, events := events1,
                  thrown := some .conditionalCheckFailed, exchangeCalled := true }
              | .ok plans2 =>
                match publishEvent env events1 .EXECUTION_COMPLETED
                  { userId := some plan.userId, planId := some plan.planId,
                    executionId := some ev.executionId,
                    transactionId := some txn.transactionId,
                    amount := some plan.amount,
                    bitcoinAmount := some txn.bitcoinAmount,
                    nextExecutionTime := some next } with
                | .error _ =>
                  { plans := plans2, txns := txns1, events := events1,
                    thrown := some .publishFailed, exchangeCalled := true }
                | .ok events2 =>
                  { plans := plans2, txns := txns1, events := events2,
                    thrown := none, exchangeCalled := true }
            else
              match updatePlanStatus plans1 plan.userId plan.planId .FAILED env.nowIso with
              | .error _ =>
                { plans := plans1, txns := txns1, events := events1,
                  thrown := some .conditionalCheckFailed, exchangeCalled := true }
              | .ok plans2 =>
                match publishEvent env events1 .EXECUTION_FAILED
                  { userId := some plan.userId, planId := some plan.planId,
                    executionId := some ev.executionId,
                    transactionId := some txn.transactionId,
                    amount := some plan.amount,
                    errorMessage := pr.errorMessage,
                    attemptCount := some ev.attemptCount } with
                | .error _ =>
                  { plans := plans2, txns := txns1, events := events1,
                    thrown := some .publishFailed, exchangeCalled := true }
                | .ok events2 =>
                  { plans := plans2, txns := txns1, events := events2,
                    thrown := some (.purchaseFailed pr.errorMessage), exchangeCalled := true }

/-! ## Helper lemmas about the store operations -/

/-- A plan always matches its own key. -/
theorem planKeyMatches_self (q : SavingsPlan) :
    planKeyMatches q.userId q.planId q = true := by
  simp [planKeyMatches]

/-- The status/updatedAt rewrite of a conditional update does not change
which keys a row matches. -/
theorem planKeyMatches_setStatus (u2 p2 u p : String) (st : SavingsPlanStatus)
    (ts : String) (a : SavingsPlan) :
    planKeyMatches u2 p2
      (if planKeyMatches u p a then { a with status := st, updatedAt := ts } else a) =
    planKeyMatches u2 p2 a := by
  split <;> rfl

/-- Key presence is invariant under the status-update rewrite. -/
theorem any_key_map_setStatus (store : List SavingsPlan) (u p : String)
    (st : SavingsPlanStatus) (ts : String) (u2 p2 : String) :
    ((store.map fun q =>
        if planKeyMatches u p q then { q with status := st, updatedAt := ts } else q).any
      (planKeyMatches u2 p2)) = store.any (planKeyMatches u2 p2) := by
  induction store with
  | nil => rfl
  | cons a rest ih =>
    simp only [List.map_cons, List.any_cons, ih, planKeyMatches_setStatus]

/-- Every row matching the updated key has the new status after the
status-update rewrite. -/
theorem status_after_setStatus_map (store : List SavingsPlan) (u p : String)
    (st : SavingsPlanStatus) (ts : String) :
    ∀ r ∈ store.map (fun q =>
        if planKeyMatches u p q then { q with status := st, updatedAt := ts } else q),
      planKeyMatches u p r = true → r.status = st := by
  intro r hr hkey
  rw [List.mem_map] at hr
  obtain ⟨a, ha, rfl⟩ := hr
  by_cases h : planKeyMatches u p a
  · simp [h]
  · rw [if_neg h] at hkey ⊢
    exact absurd hkey h

/-- The reschedule rewrite does not change which keys a row matches. -/
theorem planKeyMatches_setNext (u2 p2 u p : String) (next : Int) (ts : String)
    (a : SavingsPlan) :
    planKeyMatches u2 p2
      (if planKeyMatches u p a then
        { a with status := .ACTIVE, nextExecutionTime := next, updatedAt := ts } else a) =
    planKeyMatches u2 p2 a := by
  split <;> rfl

/-- Every row matching the updated key is ACTIVE with the new
`nextExecutionTime` after the reschedule rewrite. -/
theorem fields_after_setNext_map (store : List SavingsPlan) (u p : String)
    (next : Int) (ts : String) :
    ∀ r ∈ store.map (fun q =>
        if planKeyMatches u p q then
          { q with status := .ACTIVE, nextExecutionTime := next, updatedAt := ts } else q),
      planKeyMatches u p r = true →
        r.status = SavingsPlanStatus.ACTIVE ∧ r.nextExecutionTime = next := by
  intro r hr hkey
  rw [List.mem_map] at hr
  obtain ⟨a, ha, rfl⟩ := hr
  by_cases h : planKeyMatches u p a
  · simp [h]
  · rw [if_neg h] at hkey ⊢
    exact absurd hkey h

/-- Unpacking a successful `getSavingsPlan`: the found plan carries the
requested key, is a member of the store, and witnesses key presence. -/
theorem getSavingsPlan_key (store : List SavingsPlan) (u p : String)
    (plan : SavingsPlan) (h : getSavingsPlan store u p = some plan) :
    plan.userId = u ∧ plan.planId = p ∧
    store.any (planKeyMatches u p) = true ∧ plan ∈ store := by
  unfold getSavingsPlan at h
  have hmem := List.mem_of_find?_eq_some h
  have hpred := List.find?_some h
  unfold planKeyMatches at hpred
  rw [Bool.and_eq_true, beq_iff_eq, beq_iff_eq] at hpred
  refine ⟨hpred.1, hpred.2, ?_, hmem⟩
  refine List.any_eq_true.mpr ⟨plan, hmem, ?_⟩
  unfold planKeyMatches
  rw [Bool.and_eq_true, beq_iff_eq, beq_iff_eq]
  exact hpred

/-! ## Claim C4 -/

/-- Counterexample to claim C4 as stated: the MONTHLY advance from
2024-01-31 lands on 2024-03-02 (JavaScript `setMonth` rolls the out-of-range
Feb 31 into March), not on 2024-02-29 as the claim asserts. -/
theorem C4_monthly_counterexample :
    calculateNextExecutionTime .MONTHLY (daysFromCivil 2024 1 31 * 86400000) =
      daysFromCivil 2024 3 2 * 86400 ∧
    daysFromCivil 2024 3 2 * 86400 ≠ daysFromCivil 2024 2 29 * 86400 := by
  constructor
  · decide
  · decide

/-- Claim C4 (amended): for every reference instant `t` (ms),
`calculateNextExecutionTime` returns `t` truncated to seconds plus exactly
86400 s for DAILY, 604800 s for WEEKLY and 1209600 s (14 days) for BIWEEKLY;
for MONTHLY it adds one month keeping the day of month, with out-of-range
days rolling into the following month (ECMAScript `setMonth` semantics), so
the advance from 2024-01-31 yields 2024-03-02, not 2024-02-29. -/
theorem C4_next_execution_time (t : Int) :
    calculateNextExecutionTime .DAILY t = t / 1000 + 86400 ∧
    calculateNextExecutionTime .WEEKLY t = t / 1000 + 604800 ∧
    calculateNextExecutionTime .BIWEEKLY t = t / 1000 + 1209600 ∧
    calculateNextExecutionTime .MONTHLY (daysFromCivil 2024 1 31 * 86400000) =
      daysFromCivil 2024 3 2 * 86400 := by
  refine ⟨?_, ?_, ?_, by decide⟩ <;>
  · unfold calculateNextExecutionTime
    dsimp only
    rw [jsSetDate_add]
    unfold msPerDay
    omega

/-! ## Claim C9 -/

/-- Counterexample to claim C9 as stated: `staging` is a non-production
stage, yet a failed secret retrieval on `staging` propagates (no client is
returned) instead of falling back to the demo credentials. -/
theorem C9_staging_counterexample :
    createFromSecrets none "staging" = none ∧ "staging" ≠ "prod" := by
  constructor
  · rfl
  · decide

/-- Claim C9 (amended): when secret retrieval fails at client construction,
the factory falls back to the fixed demo credentials only when the stage is
exactly `dev`; for every other stage — production, but also non-production
stages such as `staging` — the failure propagates and aborts startup. -/
theorem C9_credential_fallback (secretConfig : Option ExchangeConfig)
    (stage : String) (hfail : secretConfig = none) :
    (stage = "dev" → createFromSecrets secretConfig stage = some demoConfig) ∧
    (stage ≠ "dev" → createFromSecrets secretConfig stage = none) := by
  subst hfail
  constructor
  · intro h
    subst h
    rfl
  · intro h
    unfold createFromSecrets
    have hb : (stage == "dev") = false := beq_eq_false_iff_ne.mpr h
    rw [hb]
    rfl

/-- Witness for C9: the `dev` fallback and the `prod` propagation at the
concrete stages. -/
theorem C9_credential_fallback_witness :
    ("dev" = "dev" → createFromSecrets none "dev" = some demoConfig) ∧
    ("prod" ≠ "dev" → createFromSecrets none "prod" = none) :=
  ⟨(C9_credential_fallback none "dev" rfl).1,
   (C9_credential_fallback none "prod" rfl).2⟩

/-! ## Claim C7 -/

/-- Claim C7: the exchange client's purchase operation is total — every
error raised inside it is converted by the catch block into a failed
`BitcoinPurchaseResult`.  The only error the (simulated) request body can
raise carries the non-empty message `Exchange API temporary error`; the
conversion always records the timestamp and the correlating
`clientRequestId`, and adds HTTP status code, status text and response body
exactly when the caught error carries a transport-layer response. -/
theorem C7_purchase_errors_converted (req : PurchaseRequest) (nowIso : String)
    (draws : ExchangeSimDraws) (e : JsErrorInfo) (resp : HttpResponseInfo) :
    ((purchaseBitcoin req nowIso draws).success = false →
      purchaseBitcoin req nowIso draws =
        purchaseErrorResult req.clientRequestId nowIso simulatedExchangeError) ∧
    (purchaseErrorResult req.clientRequestId nowIso simulatedExchangeError).errorMessage =
      some "Exchange API temporary error" ∧
    (purchaseErrorResult req.clientRequestId nowIso e).success = false ∧
    (purchaseErrorResult req.clientRequestId nowIso e).errorMessage ≠ none ∧
    (purchaseErrorResult req.clientRequestId nowIso
        { e with axiosResponse := none }).errorDetails =
      some { timestamp := nowIso, requestId := req.clientRequestId } ∧
    (purchaseErrorResult req.clientRequestId nowIso
        { e with axiosResponse := some resp }).errorDetails =
      some { timestamp := nowIso, requestId := req.clientRequestId,
             statusCode := some resp.status, statusText := some resp.statusText,
             responseData := some resp.responseData } := by
  refine ⟨?_, rfl, rfl, ?_, rfl, rfl⟩
  · intro h
    unfold purchaseBitcoin at h ⊢
    cases hf : draws.failDraw with
    | true => rw [if_pos rfl]
    | false =>
      rw [hf] at h
      simp at h
  · unfold purchaseErrorResult
    simp

/-- Witness for C7 at a concrete failing draw. -/
theorem C7_purchase_errors_converted_witness :
    purchaseBitcoin
        { userId := "user-1", amount := 100, sourceOfFunds := "bank-account",
          clientRequestId := "exec-1" } "2024-01-31T00:00:00.000Z"
        { failDraw := true, exchangeRate := 65000, exchangeTxId := "tx-1" } =
      purchaseErrorResult "exec-1" "2024-01-31T00:00:00.000Z" simulatedExchangeError :=
  (C7_purchase_errors_converted
    { userId := "user-1", amount := 100, sourceOfFunds := "bank-account",
      clientRequestId := "exec-1" } "2024-01-31T00:00:00.000Z"
    { failDraw := true, exchangeRate := 65000, exchangeTxId := "tx-1" }
    { isErrorInstance := true, message := "boom" }
    { status := 500, statusText := "Internal Server Error", responseData := "{}" }).1
    (by decide)

/-! ## Concrete fixtures used by counterexamples and witnesses -/

/-- A stored plan whose status is EXECUTING (not ACTIVE). -/
def planExecuting : SavingsPlan :=
  { userId := "user-1", planId := "plan-1", amount := 100, frequency := .WEEKLY,
    sourceOfFunds := "bank-account", status := .EXECUTING, nextExecutionTime := 1000,
    startDate := "2024-01-01", createdAt := "2024-01-01T00:00:00.000Z",
    updatedAt := "2024-01-01T00:00:00.000Z" }

/-- A stored ACTIVE plan due at time 100. -/
def planActive : SavingsPlan :=
  { userId := "user-1", planId := "plan-1", amount := 100, frequency := .WEEKLY,
    sourceOfFunds := "bank-account", status := .ACTIVE, nextExecutionTime := 100,
    startDate := "2024-01-01", createdAt := "2024-01-01T00:00:00.000Z",
    updatedAt := "2024-01-01T00:00:00.000Z" }

/-- A Scanner environment in which every external call succeeds. -/
def scannerEnvOk : ScannerEnv :=
  { now := 200, batchSize := 25, currentTime := "2024-02-01T00:00:00.000Z",
    execId := fun _ _ => "exec-1",
    deletedBetween := fun _ _ => false,
    sqsFails := fun _ _ => false,
    publishFails := fun _ _ => false }

/-- A Scanner environment in which every plan is concurrently deleted
between the query and the conditional update. -/
def scannerEnvDel : ScannerEnv :=
  { now := 200, batchSize := 25, currentTime := "2024-02-01T00:00:00.000Z",
    execId := fun _ _ => "exec-1",
    deletedBetween := fun _ _ => true,
    sqsFails := fun _ _ => false,
    publishFails := fun _ _ => false }

/-! ## Claim C2 -/

/-- Counterexample to claim C2 as stated: a stored plan whose status is
EXECUTING (not ACTIVE) exists, and the Scanner's conditional update succeeds
and writes PENDING_EXECUTION instead of failing with PreconditionFailed —
the condition `attribute_exists(planId)` never inspects the stored status. -/
theorem C2_counterexample :
    planExecuting.status ≠ SavingsPlanStatus.ACTIVE ∧
    updatePlanStatus [planExecuting] "user-1" "plan-1" .PENDING_EXECUTION "t1" =
      .ok [{ planExecuting with status := .PENDING_EXECUTION, updatedAt := "t1" }] := by
  constructor
  · decide
  · rfl

/-- Claim C2 (amended): the Scanner's status update is conditional only on
the plan's existence: whenever a row with the key exists, the update
succeeds and writes PENDING_EXECUTION regardless of the stored status, and
the per-plan pipeline enqueues the ExecutionTask; the update fails with
PreconditionFailed exactly when the plan is absent.  The conditional update
therefore does not by itself prevent two overlapping Scanner runs from both
scheduling the same plan. -/
theorem C2_update_conditional_on_existence_only (env : ScannerEnv)
    (s : ScanState) (q : SavingsPlan)
    (hq : s.store.any (planKeyMatches q.userId q.planId) = true)
    (hsqs : env.sqsFails q.userId q.planId = false)
    (hpub : env.publishFails q.userId q.planId = false) :
    (∃ updated,
      updatePlanStatus s.store q.userId q.planId .PENDING_EXECUTION env.currentTime =
        .ok updated ∧
      ∀ r ∈ updated, planKeyMatches q.userId q.planId r = true →
        r.status = SavingsPlanStatus.PENDING_EXECUTION) ∧
    (processPlanForExecution env s q).2 = none ∧
    (processPlanForExecution env s q).1.queue = s.queue ++
      [{ body := { userId := q.userId, planId := q.planId,
                   executionTime := env.currentTime,
                   executionId := env.execId q.userId q.planId, attemptCount := 0 },
         dedupId := env.execId q.userId q.planId, groupId := q.userId }] ∧
    (∀ u2 p2, s.store.any (planKeyMatches u2 p2) = false →
      updatePlanStatus s.store u2 p2 .PENDING_EXECUTION env.currentTime =
        .error .conditionalCheckFailed) := by
  have hupd : updatePlanStatus s.store q.userId q.planId .PENDING_EXECUTION env.currentTime =
      .ok (s.store.map fun r =>
        if planKeyMatches q.userId q.planId r then
          { r with status := .PENDING_EXECUTION, updatedAt := env.currentTime } else r) := by
    unfold updatePlanStatus
    rw [if_pos hq]
  refine ⟨⟨_, hupd, status_after_setStatus_map _ _ _ _ _⟩, ?_, ?_, ?_⟩
  · simp only [processPlanForExecution, hupd, hsqs, hpub]
    rfl
  · simp only [processPlanForExecution, hupd, hsqs, hpub]
    rfl
  · intro u2 p2 h
    unfold updatePlanStatus
    rw [h]
    rfl

/-- Witness for C2 at a concrete store holding an EXECUTING plan. -/
theorem C2_update_conditional_on_existence_only_witness :
    (processPlanForExecution scannerEnvOk
      { store := [planExecuting], queue := [], events := [] } planExecuting).2 = none :=
  (C2_update_conditional_on_existence_only scannerEnvOk
    { store := [planExecuting], queue := [], events := [] } planExecuting
    (by decide) rfl rfl).2.1

/-! ## Scanner run lemmas -/

/-- A best-effort revert of a missing plan leaves the store unchanged. -/
theorem bestEffortRevert_missing (store : List SavingsPlan) (u p ts : String)
    (h : store.any (planKeyMatches u p) = false) :
    bestEffortRevert store u p ts = store := by
  unfold bestEffortRevert updatePlanStatus
  rw [h]
  rfl

/-- A successful conditional update preserves key presence. -/
theorem updatePlanStatus_ok_any (store : List SavingsPlan) (u p : String)
    (st : SavingsPlanStatus) (ts : String) (upd : List SavingsPlan)
    (u2 p2 : String) (h : updatePlanStatus store u p st ts = .ok upd) :
    upd.any (planKeyMatches u2 p2) = store.any (planKeyMatches u2 p2) := by
  unfold updatePlanStatus at h
  split at h
  · injection h with h2
    subst h2
    exact any_key_map_setStatus store u p st ts u2 p2
  · cases h

/-- The best-effort revert preserves key presence. -/
theorem bestEffortRevert_any (store : List SavingsPlan) (u p ts u2 p2 : String) :
    (bestEffortRevert store u p ts).any (planKeyMatches u2 p2) =
      store.any (planKeyMatches u2 p2) := by
  unfold bestEffortRevert
  cases hupd : updatePlanStatus store u p .ACTIVE ts with
  | ok upd => exact updatePlanStatus_ok_any store u p .ACTIVE ts upd u2 p2 hupd
  | error e => rfl

/-- Processing a plan whose row is absent from the store skips it entirely:
the state (store, queue, events) is unchanged and the step rejects with the
precondition failure. -/
theorem processPlan_missing (env : ScannerEnv) (s : ScanState) (plan : SavingsPlan)
    (h : s.store.any (planKeyMatches plan.userId plan.planId) = false) :
    processPlanForExecution env s plan = (s, some .preconditionFailed) := by
  have hupd : updatePlanStatus s.store plan.userId plan.planId .PENDING_EXECUTION
      env.currentTime = .error .conditionalCheckFailed := by
    unfold updatePlanStatus
    rw [h]
    rfl
  simp only [processPlanForExecution, hupd, bestEffortRevert_missing s.store _ _ _ h]

/-- One Scanner step preserves key presence in the store. -/
theorem processPlan_store_any (env : ScannerEnv) (s : ScanState)
    (plan : SavingsPlan) (u2 p2 : String) :
    ((processPlanForExecution env s plan).1.store.any (planKeyMatches u2 p2)) =
      s.store.any (planKeyMatches u2 p2) := by
  unfold processPlanForExecution
  cases hupd : updatePlanStatus s.store plan.userId plan.planId .PENDING_EXECUTION
      env.currentTime with
  | error e => simp [bestEffortRevert_any]
  | ok store1 =>
    have h1 := updatePlanStatus_ok_any s.store plan.userId plan.planId
      .PENDING_EXECUTION env.currentTime store1 u2 p2 hupd
    cases hsq : env.sqsFails plan.userId plan.planId with
    | true => simp [bestEffortRevert_any, h1]
    | false =>
      cases hpb : env.publishFails plan.userId plan.planId with
      | true => simp [hsq, bestEffortRevert_any, h1]
      | false => simp [hsq, h1]

/-- One Scanner step either leaves the queue unchanged or appends exactly
the plan's ExecutionTask message. -/
theorem processPlan_queue (env : ScannerEnv) (s : ScanState) (plan : SavingsPlan) :
    (processPlanForExecution env s plan).1.queue = s.queue ∨
    (processPlanForExecution env s plan).1.queue = s.queue ++
      [{ body := { userId := plan.userId, planId := plan.planId,
                   executionTime := env.currentTime,
                   executionId := env.execId plan.userId plan.planId,
                   attemptCount := 0 },
         dedupId := env.execId plan.userId plan.planId, groupId := plan.userId }] := by
  unfold processPlanForExecution
  cases hupd : updatePlanStatus s.store plan.userId plan.planId .PENDING_EXECUTION
      env.currentTime with
  | error e => left; rfl
  | ok store1 =>
    cases hsq : env.sqsFails plan.userId plan.planId with
    | true => left; rfl
    | false =>
      cases hpb : env.publishFails plan.userId plan.planId with
      | true => right; simp [hsq]
      | false => right; simp [hsq]

/-- If some processed plan's row is absent at its step, the run's rejection
count is nonzero. -/
theorem processAllPlans_count_ne_zero (env : ScannerEnv)
    (plans : List SavingsPlan) (s : ScanState) (plan : SavingsPlan)
    (hmem : plan ∈ plans)
    (habs : s.store.any (planKeyMatches plan.userId plan.planId) = false) :
    (processAllPlans env s plans).2 ≠ 0 := by
  induction plans generalizing s with
  | nil => cases hmem
  | cons q rest ih =>
    unfold processAllPlans
    dsimp only
    rcases List.mem_cons.mp hmem with heq | hmem2
    · subst heq
      rw [processPlan_missing env s plan habs]
      simp
    · have hn := ih (processPlanForExecution env s q).1 hmem2
        (by rw [processPlan_store_any]; exact habs)
      omega

/-- No message for a key that is absent from the store ever enters the
queue. -/
theorem processAllPlans_no_msg (env : ScannerEnv) (plans : List SavingsPlan)
    (s : ScanState) (u p : String)
    (habs : s.store.any (planKeyMatches u p) = false)
    (hq : ∀ msg ∈ s.queue, ¬(msg.body.userId = u ∧ msg.body.planId = p)) :
    ∀ msg ∈ (processAllPlans env s plans).1.queue,
      ¬(msg.body.userId = u ∧ msg.body.planId = p) := by
  induction plans generalizing s with
  | nil => exact hq
  | cons q rest ih =>
    unfold processAllPlans
    dsimp only
    apply ih (processPlanForExecution env s q).1
    · rw [processPlan_store_any]
      exact habs
    · rcases processPlan_queue env s q with hcase | hcase
      · rw [hcase]
        exact hq
      · rw [hcase]
        intro msg hmsg
        rcases List.mem_append.mp hmsg with h1 | h2
        · exact hq msg h1
        · rw [List.mem_singleton] at h2
          subst h2
          dsimp only
          rintro ⟨he1, he2⟩
          have hmiss := processPlan_missing env s q (by rw [he1, he2]; exact habs)
          rw [hmiss] at hcase
          dsimp only at hcase
          have hlen := congrArg List.length hcase
          simp at hlen

/-! ## Claim C1 -/

/-- Counterexample to claim C1 as stated: one due ACTIVE plan is deleted
concurrently between the query and the conditional update.  The plan is
indeed skipped (queue is empty), but the run reports failure (throws) even
though no other plan hard-failed — the precondition failure does count
toward the run's failure signal. -/
theorem C1_counterexample :
    (scannerHandler scannerEnvDel [planActive]).2 = true ∧
    (scannerHandler scannerEnvDel [planActive]).1.queue = [] := by
  constructor
  · decide
  · decide

/-- Claim C1 (amended): when the conditional ACTIVE→PENDING_EXECUTION update
for a plan fails with PreconditionFailed, that plan is skipped — its state
is untouched and no ExecutionTask for it is ever enqueued — but the failure
is rethrown and aggregated, so it does count toward the run's failure
signal: the run as a whole reports failure even when every other plan
succeeds. -/
theorem C1_precondition_failure (env : ScannerEnv) (store : List SavingsPlan)
    (plan : SavingsPlan)
    (hdue : plan ∈ queryDuePlans store env.now env.batchSize)
    (hdel : env.deletedBetween plan.userId plan.planId = true) :
    (∀ s2 : ScanState, s2.store.any (planKeyMatches plan.userId plan.planId) = false →
       processPlanForExecution env s2 plan = (s2, some .preconditionFailed)) ∧
    (scannerHandler env store).2 = true ∧
    (∀ msg ∈ (scannerHandler env store).1.queue,
       ¬(msg.body.userId = plan.userId ∧ msg.body.planId = plan.planId)) := by
  have hne : (queryDuePlans store env.now env.batchSize).isEmpty = false := by
    rcases hq : queryDuePlans store env.now env.batchSize with _ | ⟨a, rest⟩
    · rw [hq] at hdue
      cases hdue
    · rfl
  have habs : (store.filter fun q => !(env.deletedBetween q.userId q.planId)).any
      (planKeyMatches plan.userId plan.planId) = false := by
    rw [List.any_eq_false]
    intro x hx
    rw [List.mem_filter] at hx
    intro hkey
    unfold planKeyMatches at hkey
    rw [Bool.and_eq_true, beq_iff_eq, beq_iff_eq] at hkey
    rw [hkey.1, hkey.2, hdel] at hx
    simp at hx
  refine ⟨fun s2 h2 => processPlan_missing env s2 plan h2, ?_, ?_⟩
  · have hcount := processAllPlans_count_ne_zero env
      (queryDuePlans store env.now env.batchSize)
      { store := store.filter fun q => !(env.deletedBetween q.userId q.planId),
        queue := [], events := [] } plan hdue habs
    simp only [scannerHandler, hne]
    simp [bne_iff_ne, hcount]
  · simp only [scannerHandler, hne]
    simp only [Bool.false_eq_true, if_false]
    intro msg hmsg
    exact processAllPlans_no_msg env (queryDuePlans store env.now env.batchSize)
      { store := store.filter fun q => !(env.deletedBetween q.userId q.planId),
        queue := [], events := [] } plan.userId plan.planId habs
      (by intro m hm; cases hm) msg hmsg

/-- Witness for C1 at the concrete one-plan store with a concurrent
deletion. -/
theorem C1_precondition_failure_witness :
    (scannerHandler scannerEnvDel [planActive]).2 = true :=
  (C1_precondition_failure scannerEnvDel [planActive] planActive
    (by decide) rfl).2.1

/-! ## Claim C6 -/

/-- The ExecutionTask message the Scanner sends for a plan: attemptCount 0,
deduplicated by the freshly generated executionId, grouped by userId. -/
def scannerMessageFor (env : ScannerEnv) (q : SavingsPlan) : SqsMessage :=
  { body := { userId := q.userId, planId := q.planId,
              executionTime := env.currentTime,
              executionId := env.execId q.userId q.planId, attemptCount := 0 },
    dedupId := env.execId q.userId q.planId, groupId := q.userId }

/-- Processing a present plan with working transport succeeds and appends
exactly its message. -/
theorem processPlan_success (env : ScannerEnv) (s : ScanState) (q : SavingsPlan)
    (hq : s.store.any (planKeyMatches q.userId q.planId) = true)
    (hsqs : env.sqsFails q.userId q.planId = false)
    (hpub : env.publishFails q.userId q.planId = false) :
    (processPlanForExecution env s q).2 = none ∧
    (processPlanForExecution env s q).1.queue = s.queue ++ [scannerMessageFor env q] := by
  have hupd : updatePlanStatus s.store q.userId q.planId .PENDING_EXECUTION env.currentTime =
      .ok (s.store.map fun r =>
        if planKeyMatches q.userId q.planId r then
          { r with status := .PENDING_EXECUTION, updatedAt := env.currentTime } else r) := by
    unfold updatePlanStatus
    rw [if_pos hq]
  constructor <;> simp only [processPlanForExecution, hupd, hsqs, hpub, scannerMessageFor] <;> rfl

/-- When every processed plan is present and transport never fails, the run
appends exactly one message per plan, in order, and rejects nothing. -/
theorem processAllPlans_success (env : ScannerEnv) (plans : List SavingsPlan)
    (s : ScanState)
    (hkeys : ∀ q ∈ plans, s.store.any (planKeyMatches q.userId q.planId) = true)
    (hsqs : ∀ q ∈ plans, env.sqsFails q.userId q.planId = false)
    (hpub : ∀ q ∈ plans, env.publishFails q.userId q.planId = false) :
    (processAllPlans env s plans).1.queue = s.queue ++ plans.map (scannerMessageFor env) ∧
    (processAllPlans env s plans).2 = 0 := by
  induction plans generalizing s with
  | nil => simp [processAllPlans]
  | cons q rest ih =>
    have hstep := processPlan_success env s q (hkeys q (List.mem_cons_self q rest))
      (hsqs q (List.mem_cons_self q rest)) (hpub q (List.mem_cons_self q rest))
    have hrest := ih (processPlanForExecution env s q).1
      (fun r hr => by rw [processPlan_store_any]; exact hkeys r (List.mem_cons_of_mem _ hr))
      (fun r hr => hsqs r (List.mem_cons_of_mem _ hr))
      (fun r hr => hpub r (List.mem_cons_of_mem _ hr))
    unfold processAllPlans
    dsimp only
    constructor
    · rw [hrest.1, hstep.2]
      simp
    · rw [hstep.1, hrest.2]
      rfl

/-- Claim C6: a Scanner run selects exactly the stored plans with status
ACTIVE and nextExecutionTime ≤ now, capped at the batch size (every selected
plan is ACTIVE and due, at most batchSize plans are selected, and when the
due set fits in the cap every due ACTIVE plan is selected); and, when no
plan vanishes concurrently and transport succeeds, exactly one ExecutionTask
per selected plan is enqueued, carrying attemptCount 0, deduplicated by the
freshly generated executionId and grouped (ordered) per userId, and the run
reports success. -/
theorem C6_scan_selection_and_dispatch (env : ScannerEnv) (store : List SavingsPlan)
    (hnodel : ∀ u p, env.deletedBetween u p = false)
    (hsqs : ∀ u p, env.sqsFails u p = false)
    (hpub : ∀ u p, env.publishFails u p = false) :
    (∀ q ∈ queryDuePlans store env.now env.batchSize,
       q.status = SavingsPlanStatus.ACTIVE ∧ q.nextExecutionTime ≤ env.now) ∧
    (queryDuePlans store env.now env.batchSize).length ≤ env.batchSize ∧
    ((store.filter fun q =>
        q.status == SavingsPlanStatus.ACTIVE && q.nextExecutionTime ≤ env.now).length
          ≤ env.batchSize →
      ∀ q ∈ store, q.status = SavingsPlanStatus.ACTIVE → q.nextExecutionTime ≤ env.now →
        q ∈ queryDuePlans store env.now env.batchSize) ∧
    (scannerHandler env store).1.queue =
      (queryDuePlans store env.now env.batchSize).map (scannerMessageFor env) ∧
    (scannerHandler env store).2 = false := by
  have hrun : (scannerHandler env store).1.queue =
      (queryDuePlans store env.now env.batchSize).map (scannerMessageFor env) ∧
      (scannerHandler env store).2 = false := by
    cases hdq : (queryDuePlans store env.now env.batchSize).isEmpty with
    | true =>
      have hnil : queryDuePlans store env.now env.batchSize = [] := by
        rcases h2 : queryDuePlans store env.now env.batchSize with _ | ⟨a, rest⟩
        · rfl
        · rw [h2] at hdq
          cases hdq
      simp only [scannerHandler, hdq]
      rw [hnil]
      exact ⟨rfl, rfl⟩
    | false =>
      have hall := processAllPlans_success env (queryDuePlans store env.now env.batchSize)
        { store := store.filter fun q => !(env.deletedBetween q.userId q.planId),
          queue := [], events := [] }
        (fun q hqd => by
          have hmem : q ∈ store :=
            (List.mem_filter.mp (List.mem_of_mem_take hqd)).1
          have hmem2 : q ∈ store.filter fun r => !(env.deletedBetween r.userId r.planId) :=
            List.mem_filter.mpr ⟨hmem, by rw [hnodel]; rfl⟩
          exact List.any_eq_true.mpr ⟨q, hmem2, planKeyMatches_self q⟩)
        (fun q _ => hsqs q.userId q.planId)
        (fun q _ => hpub q.userId q.planId)
      simp only [scannerHandler, hdq, Bool.false_eq_true, if_false]
      constructor
      · rw [hall.1]
        rfl
      · rw [hall.2]
        rfl
  refine ⟨?_, ?_, ?_, hrun.1, hrun.2⟩
  · intro q hq
    have hmem := List.mem_of_mem_take hq
    have hpred := (List.mem_filter.mp hmem).2
    rw [Bool.and_eq_true, beq_iff_eq, decide_eq_true_iff] at hpred
    exact hpred
  · exact List.length_take_le env.batchSize _
  · intro hlen q hq h1 h2
    unfold queryDuePlans
    rw [List.take_of_length_le hlen]
    exact List.mem_filter.mpr ⟨hq, by rw [h1]; simp [h2]⟩

/-- Witness for C6 at a concrete one-plan store. -/
theorem C6_scan_selection_and_dispatch_witness :
    (scannerHandler scannerEnvOk [planActive]).1.queue =
      (queryDuePlans [planActive] scannerEnvOk.now scannerEnvOk.batchSize).map
        (scannerMessageFor scannerEnvOk) ∧
    (scannerHandler scannerEnvOk [planActive]).2 = false :=
  ⟨(C6_scan_selection_and_dispatch scannerEnvOk [planActive]
      (fun _ _ => rfl) (fun _ _ => rfl) (fun _ _ => rfl)).2.2.2.1,
   (C6_scan_selection_and_dispatch scannerEnvOk [planActive]
      (fun _ _ => rfl) (fun _ _ => rfl) (fun _ _ => rfl)).2.2.2.2⟩

/-! ## Executor path helper lemmas -/

/-- A conditional transaction insert with a fresh id succeeds and appends
the row. -/
theorem recordTransaction_fresh (txns : List SavingsPlanTransaction)
    (t : SavingsPlanTransaction)
    (h : txns.any (txnKeyMatches t.userId t.transactionId) = false) :
    recordTransaction txns t = .ok (txns ++ [t]) := by
  unfold recordTransaction
  rw [h]
  rfl

/-- A publish whose transport succeeds appends the stamped event. -/
theorem publishEvent_ok (env : ExecutorEnv) (events : List PublishedEvent)
    (ty : EventType) (detail : EventDetail) (h : env.pubFails ty = false) :
    publishEvent env events ty detail = .ok (events ++
      [{ eventType := ty,
         detail := { detail with
                     timestamp := some env.nowIso,
                     stage := some env.stage } }]) := by
  unfold publishEvent
  rw [h]
  rfl

/-- A publish whose transport fails raises. -/
theorem publishEvent_fail (env : ExecutorEnv) (events : List PublishedEvent)
    (ty : EventType) (detail : EventDetail) (h : env.pubFails ty = true) :
    publishEvent env events ty detail = .error () := by
  unfold publishEvent
  rw [h]
  rfl

/-- A conditional status update on a present key succeeds with the rewritten
store. -/
theorem updatePlanStatus_ok (store : List SavingsPlan) (u p : String)
    (st : SavingsPlanStatus) (ts : String)
    (h : store.any (planKeyMatches u p) = true) :
    updatePlanStatus store u p st ts = .ok (store.map fun q =>
      if planKeyMatches u p q then { q with status := st, updatedAt := ts } else q) := by
  unfold updatePlanStatus
  rw [if_pos h]

/-- A conditional reschedule on a present key succeeds with the rewritten
store. -/
theorem updatePlanWithNextExecution_ok (store : List SavingsPlan) (u p : String)
    (next : Int) (ts : String)
    (h : store.any (planKeyMatches u p) = true) :
    updatePlanWithNextExecution store u p next ts = .ok (store.map fun q =>
      if planKeyMatches u p q then
        { q with status := .ACTIVE, nextExecutionTime := next, updatedAt := ts }
      else q) := by
  unfold updatePlanWithNextExecution
  rw [if_pos h]

/-! ## Claim C3 -/

/-- A dispatch task that has reached the retry limit (attemptCount 3). -/
def taskMaxRetries : SchedulerExecutionEvent :=
  { userId := "user-1", planId := "plan-1",
    executionTime := "2024-02-01T00:00:00.000Z",
    executionId := "exec-1", attemptCount := 3 }

/-- An Executor environment with defaults (max retries 3) in which every
external call succeeds and the purchase fails. -/
def executorEnvOk : ExecutorEnv :=
  { maxRetries := 3, maxRetriesStr := "3", nowMs := 1706745600000,
    nowIso := "2024-02-01T00:00:00.000Z", stage := "dev",
    freshTransactionId := "txn-1",
    purchaseResult := { success := false,
                        errorMessage := some "Exchange API temporary error" },
    pubFails := fun _ => false }

/-- Counterexample to claim C3 as stated: a max-retries task whose plan is
missing is NOT treated as already resolved — `getSavingsPlan` throws, the
error is re-thrown, and the task is signalled failed (so the redelivery
cycle continues) instead of stopping without error. -/
theorem C3_missing_plan_counterexample :
    (processExecutionEvent executorEnvOk { plans := [], txns := [], events := [] }
        taskMaxRetries).thrown = some .planNotFound ∧
    (processExecutionEvent executorEnvOk { plans := [], txns := [], events := [] }
        taskMaxRetries).exchangeCalled = false := by
  constructor
  · decide
  · decide

/-- Claim C3 (amended): for every ExecutionTask with attemptCount ≥ the
configured max retries, the Executor does not call the Exchange Client.
When the plan is missing, the plan-not-found error propagates and the task
is signalled failed (it does NOT stop cleanly).  When the plan exists (and
the stores and event bus accept the writes), it forces the plan's status to
FAILED, records a synthetic FAILED transaction with bitcoinAmount 0 and
exchangeRate 0 whose errorMessage mentions maximum retries exceeded,
publishes EXECUTION_FAILED with maxRetriesExceeded set, and acknowledges
the task without throwing, terminating the redelivery cycle. -/
theorem C3_max_retries (env : ExecutorEnv) (s : ExecutorState)
    (ev : SchedulerExecutionEvent) (hattempt : ev.attemptCount ≥ env.maxRetries) :
    (getSavingsPlan s.plans ev.userId ev.planId = none →
      processExecutionEvent env s ev =
        { plans := s.plans, txns := s.txns, events := s.events,
          thrown := some .planNotFound, exchangeCalled := false }) ∧
    (∀ plan, getSavingsPlan s.plans ev.userId ev.planId = some plan →
      s.txns.any (txnKeyMatches plan.userId env.freshTransactionId) = false →
      env.pubFails .EXECUTION_FAILED = false →
      (processExecutionEvent env s ev).exchangeCalled = false ∧
      (processExecutionEvent env s ev).thrown = none ∧
      (∀ r ∈ (processExecutionEvent env s ev).plans,
        planKeyMatches ev.userId ev.planId r = true →
          r.status = SavingsPlanStatus.FAILED) ∧
      (∃ txn, (processExecutionEvent env s ev).txns = s.txns ++ [txn] ∧
        txn.status = TransactionStatus.FAILED ∧
        txn.bitcoinAmount = 0 ∧ txn.exchangeRate = 0 ∧
        txn.errorMessage =
          some ("Maximum retry attempts (" ++ env.maxRetriesStr ++ ") exceeded")) ∧
      (∃ e, (processExecutionEvent env s ev).events = s.events ++ [e] ∧
        e.eventType = EventType.EXECUTION_FAILED ∧
        e.detail.maxRetriesExceeded = some true)) := by
  have hif : processExecutionEvent env s ev = handleMaxRetries env s ev := by
    unfold processExecutionEvent
    rw [if_pos hattempt]
  constructor
  · intro hnone
    rw [hif]
    unfold handleMaxRetries
    rw [hnone]
  · intro plan hget hfresh hpub
    obtain ⟨hu, hp, hany, hmem⟩ := getSavingsPlan_key s.plans ev.userId ev.planId plan hget
    have hany2 : s.plans.any (planKeyMatches plan.userId plan.planId) = true := by
      rw [hu, hp]
      exact hany
    rw [hif]
    unfold handleMaxRetries
    rw [hget]
    dsimp only
    rw [updatePlanStatus_ok s.plans plan.userId plan.planId .FAILED env.nowIso hany2]
    dsimp only
    rw [recordTransaction_fresh s.txns _ hfresh]
    dsimp only
    rw [publishEvent_ok env s.events .EXECUTION_FAILED _ hpub]
    dsimp only
    refine ⟨rfl, rfl, ?_, ?_, ?_⟩
    · rw [← hu, ← hp]
      exact status_after_setStatus_map s.plans plan.userId plan.planId .FAILED env.nowIso
    · exact ⟨_, rfl, rfl, rfl, rfl, rfl⟩
    · refine ⟨_, rfl, ?_, ?_⟩ <;> rfl

/-- Witness for C3 on a concrete store holding the plan. -/
theorem C3_max_retries_witness :
    (processExecutionEvent executorEnvOk
        { plans := [planActive], txns := [], events := [] } taskMaxRetries).exchangeCalled =
      false ∧
    (processExecutionEvent executorEnvOk
        { plans := [planActive], txns := [], events := [] } taskMaxRetries).thrown = none :=
  have h := (C3_max_retries executorEnvOk
    { plans := [planActive], txns := [], events := [] } taskMaxRetries
    (by decide)).2 planActive (by decide) (by decide) rfl
  ⟨h.1, h.2.1⟩

/-! ## Claim C5 -/

/-- A first-attempt dispatch task for the fixture plan. -/
def taskFirstAttempt : SchedulerExecutionEvent :=
  { userId := "user-1", planId := "plan-1",
    executionTime := "2024-02-01T00:00:00.000Z",
    executionId := "exec-1", attemptCount := 0 }

/-- Claim C5: when the purchase call returns success=false (and the stores
and event bus accept the writes), after processing the plan's status is
FAILED, exactly one new Transaction row with status FAILED carrying the same
errorMessage as the purchase result has been recorded, an EXECUTION_FAILED
event is published, and the task is then signalled as failed (an error is
thrown) to trigger transport redelivery. -/
theorem C5_failed_purchase (env : ExecutorEnv) (s : ExecutorState)
    (ev : SchedulerExecutionEvent) (plan : SavingsPlan)
    (hattempt : ev.attemptCount < env.maxRetries)
    (hget : getSavingsPlan s.plans ev.userId ev.planId = some plan)
    (hfail : env.purchaseResult.success = false)
    (hfresh : s.txns.any (txnKeyMatches plan.userId env.freshTransactionId) = false)
    (hpubS : env.pubFails .EXECUTION_STARTED = false)
    (hpubF : env.pubFails .EXECUTION_FAILED = false) :
    (∀ r ∈ (processExecutionEvent env s ev).plans,
       planKeyMatches ev.userId ev.planId r = true →
         r.status = SavingsPlanStatus.FAILED) ∧
    (∃ txn, (processExecutionEvent env s ev).txns = s.txns ++ [txn] ∧
       txn.status = TransactionStatus.FAILED ∧
       txn.errorMessage = env.purchaseResult.errorMessage) ∧
    (∃ e, e ∈ (processExecutionEvent env s ev).events ∧
       e.eventType = EventType.EXECUTION_FAILED ∧
       e.detail.errorMessage = env.purchaseResult.errorMessage) ∧
    (processExecutionEvent env s ev).thrown =
      some (.purchaseFailed env.purchaseResult.errorMessage) := by
  obtain ⟨hu, hp, hany, hmem⟩ := getSavingsPlan_key s.plans ev.userId ev.planId plan hget
  have hany2 : s.plans.any (planKeyMatches plan.userId plan.planId) = true := by
    rw [hu, hp]
    exact hany
  unfold processExecutionEvent
  rw [if_neg (by omega)]
  rw [hget]
  dsimp only
  rw [hfail]
  simp only [Bool.false_eq_true, if_false]
  rw [updatePlanStatus_ok s.plans plan.userId plan.planId .EXECUTING env.nowIso hany2]
  dsimp only
  rw [publishEvent_ok env s.events .EXECUTION_STARTED _ hpubS]
  dsimp only
  rw [recordTransaction_fresh s.txns _ hfresh]
  dsimp only
  rw [updatePlanStatus_ok _ plan.userId plan.planId .FAILED env.nowIso
    (by rw [any_key_map_setStatus]; exact hany2)]
  dsimp only
  rw [publishEvent_ok env _ .EXECUTION_FAILED _ hpubF]
  dsimp only
  refine ⟨?_, ⟨_, rfl, rfl, rfl⟩, ?_, rfl⟩
  · rw [← hu, ← hp]
    exact status_after_setStatus_map _ plan.userId plan.planId .FAILED env.nowIso
  · refine ⟨_, List.mem_append_right _ (List.mem_singleton_self _), rfl, rfl⟩

/-- Witness for C5 at a concrete store and a failing purchase. -/
theorem C5_failed_purchase_witness :
    (processExecutionEvent executorEnvOk
        { plans := [planActive], txns := [], events := [] } taskFirstAttempt).thrown =
      some (.purchaseFailed (executorEnvOk.purchaseResult.errorMessage)) :=
  (C5_failed_purchase executorEnvOk
    { plans := [planActive], txns := [], events := [] } taskFirstAttempt planActive
    (by decide) (by decide) rfl (by decide) rfl rfl).2.2.2

/-! ## Claim C10 -/

/-- Shape of the transaction row recorded on the normal execution path: the
row always carries `bitcoinAmount || 0` and `exchangeRate || 0` from the
purchase result, status COMPLETED or FAILED per its success flag, and its
errorMessage.  The row is recorded no matter how the rest of the path
(reschedule, publishes) fares. -/
theorem processExecutionEvent_txns (env : ExecutorEnv) (s : ExecutorState)
    (ev : SchedulerExecutionEvent) (plan : SavingsPlan)
    (hattempt : ev.attemptCount < env.maxRetries)
    (hget : getSavingsPlan s.plans ev.userId ev.planId = some plan)
    (hfresh : s.txns.any (txnKeyMatches plan.userId env.freshTransactionId) = false)
    (hpubS : env.pubFails .EXECUTION_STARTED = false) :
    (processExecutionEvent env s ev).txns = s.txns ++
      [{ userId := plan.userId, transactionId := env.freshTransactionId,
         planId := plan.planId, amount := plan.amount,
         bitcoinAmount := env.purchaseResult.bitcoinAmount.getD 0,
         exchangeRate := env.purchaseResult.exchangeRate.getD 0,
         status := if env.purchaseResult.success then .COMPLETED else .FAILED,
         timestamp := env.nowIso,
         errorMessage := env.purchaseResult.errorMessage,
         metadata := some { executionId := ev.executionId,
                            exchangeTransactionId := env.purchaseResult.exchangeTransactionId,
                            attemptCount := ev.attemptCount,
                            fees := env.purchaseResult.fees } }] := by
  obtain ⟨hu, hp, hany, hmem⟩ := getSavingsPlan_key s.plans ev.userId ev.planId plan hget
  have hany2 : s.plans.any (planKeyMatches plan.userId plan.planId) = true := by
    rw [hu, hp]
    exact hany
  unfold processExecutionEvent
  rw [if_neg (by omega)]
  rw [hget]
  dsimp only
  rw [updatePlanStatus_ok s.plans plan.userId plan.planId .EXECUTING env.nowIso hany2]
  dsimp only
  rw [publishEvent_ok env s.events .EXECUTION_STARTED _ hpubS]
  dsimp only
  rw [recordTransaction_fresh s.txns _ hfresh]
  dsimp only
  cases hsucc : env.purchaseResult.success with
  | true =>
    simp only [eq_self_iff_true, if_true]
    rw [updatePlanWithNextExecution_ok _ plan.userId plan.planId _ env.nowIso
      (by rw [any_key_map_setStatus]; exact hany2)]
    dsimp only
    cases hpc : env.pubFails EventType.EXECUTION_COMPLETED with
    | true =>
      rw [publishEvent_fail env _ .EXECUTION_COMPLETED _ hpc]
    | false =>
      rw [publishEvent_ok env _ .EXECUTION_COMPLETED _ hpc]
  | false =>
    simp only [Bool.false_eq_true, if_false]
    rw [updatePlanStatus_ok _ plan.userId plan.planId .FAILED env.nowIso
      (by rw [any_key_map_setStatus]; exact hany2)]
    dsimp only
    cases hpf : env.pubFails EventType.EXECUTION_FAILED with
    | true =>
      rw [publishEvent_fail env _ .EXECUTION_FAILED _ hpf]
    | false =>
      rw [publishEvent_ok env _ .EXECUTION_FAILED _ hpf]

/-- Claim C10: every transaction row the Executor records with status FAILED
— from a failed purchase result (whose optional amount fields are absent and
default to 0) or from the max-retries path (hard-coded 0) — has
bitcoinAmount = 0 and exchangeRate = 0, while a COMPLETED row carries the
purchase result's bitcoinAmount and exchangeRate. -/
theorem C10_failed_rows_zero_amounts (env : ExecutorEnv) (s : ExecutorState)
    (ev : SchedulerExecutionEvent) (plan : SavingsPlan)
    (req : PurchaseRequest) (nowIso : String) (draws : ExchangeSimDraws)
    (hattempt : ev.attemptCount < env.maxRetries)
    (hget : getSavingsPlan s.plans ev.userId ev.planId = some plan)
    (hpr : env.purchaseResult = purchaseBitcoin req nowIso draws)
    (hfresh : s.txns.any (txnKeyMatches plan.userId env.freshTransactionId) = false)
    (hpubS : env.pubFails .EXECUTION_STARTED = false) :
    (∃ txn, (processExecutionEvent env s ev).txns = s.txns ++ [txn] ∧
      (draws.failDraw = true →
        txn.status = TransactionStatus.FAILED ∧
        txn.bitcoinAmount = 0 ∧ txn.exchangeRate = 0) ∧
      (draws.failDraw = false →
        txn.status = TransactionStatus.COMPLETED ∧
        txn.bitcoinAmount = req.amount / draws.exchangeRate ∧
        txn.exchangeRate = draws.exchangeRate)) ∧
    (∀ env2 s2 ev2 plan2,
      getSavingsPlan s2.plans ev2.userId ev2.planId = some plan2 →
      s2.txns.any (txnKeyMatches plan2.userId env2.freshTransactionId) = false →
      env2.pubFails .EXECUTION_FAILED = false →
      ∃ txn2, (handleMaxRetries env2 s2 ev2).txns = s2.txns ++ [txn2] ∧
        txn2.status = TransactionStatus.FAILED ∧
        txn2.bitcoinAmount = 0 ∧ txn2.exchangeRate = 0) := by
  constructor
  · refine ⟨_, processExecutionEvent_txns env s ev plan hattempt hget hfresh hpubS, ?_, ?_⟩
    · intro hd
      rw [hpr]
      unfold purchaseBitcoin
      rw [hd]
      exact ⟨rfl, rfl, rfl⟩
    · intro hd
      rw [hpr]
      unfold purchaseBitcoin
      rw [hd]
      exact ⟨rfl, rfl, rfl⟩
  · intro env2 s2 ev2 plan2 hget2 hfresh2 hpub2
    obtain ⟨hu2, hp2, hany2, hmem2⟩ :=
      getSavingsPlan_key s2.plans ev2.userId ev2.planId plan2 hget2
    have hany3 : s2.plans.any (planKeyMatches plan2.userId plan2.planId) = true := by
      rw [hu2, hp2]
      exact hany2
    unfold handleMaxRetries
    rw [hget2]
    dsimp only
    rw [updatePlanStatus_ok s2.plans plan2.userId plan2.planId .FAILED env2.nowIso hany3]
    dsimp only
    rw [recordTransaction_fresh s2.txns _ hfresh2]
    dsimp only
    rw [publishEvent_ok env2 s2.events .EXECUTION_FAILED _ hpub2]
    dsimp only
    exact ⟨_, rfl, rfl, rfl, rfl⟩

/-- Purchase request fixture matching the fixture plan. -/
def purchaseRequestFix : PurchaseRequest :=
  { userId := "user-1", amount := 100, sourceOfFunds := "bank-account",
    clientRequestId := "exec-1" }

/-- A failing exchange draw. -/
def drawsFailFix : ExchangeSimDraws :=
  { failDraw := true, exchangeRate := 65000, exchangeTxId := "tx-1" }

/-- An Executor environment whose purchase result is the exchange client's
output for a failing draw. -/
def executorEnvSim : ExecutorEnv :=
  { maxRetries := 3, maxRetriesStr := "3", nowMs := 1706745600000,
    nowIso := "2024-02-01T00:00:00.000Z", stage := "dev",
    freshTransactionId := "txn-1",
    purchaseResult :=
      purchaseBitcoin purchaseRequestFix "2024-02-01T00:00:00.000Z" drawsFailFix,
    pubFails := fun _ => false }

/-- Witness for C10 at a concrete failing purchase. -/
theorem C10_failed_rows_zero_amounts_witness :
    ∃ txn, (processExecutionEvent executorEnvSim
        { plans := [planActive], txns := [], events := [] } taskFirstAttempt).txns =
      [] ++ [txn] ∧
      (drawsFailFix.failDraw = true →
        txn.status = TransactionStatus.FAILED ∧
        txn.bitcoinAmount = 0 ∧ txn.exchangeRate = 0) ∧
      (drawsFailFix.failDraw = false →
        txn.status = TransactionStatus.COMPLETED ∧
        txn.bitcoinAmount = purchaseRequestFix.amount / drawsFailFix.exchangeRate ∧
        txn.exchangeRate = drawsFailFix.exchangeRate) :=
  (C10_failed_rows_zero_amounts executorEnvSim
    { plans := [planActive], txns := [], events := [] } taskFirstAttempt planActive
    purchaseRequestFix "2024-02-01T00:00:00.000Z" drawsFailFix
    (by decide) (by decide) rfl (by decide) rfl).1

/-! ## Claim C8 -/

/-- A best-effort revert of a present plan rewrites it back to ACTIVE. -/
theorem bestEffortRevert_present (store : List SavingsPlan) (u p ts : String)
    (h : store.any (planKeyMatches u p) = true) :
    bestEffortRevert store u p ts = store.map fun q =>
      if planKeyMatches u p q then { q with status := .ACTIVE, updatedAt := ts }
      else q := by
  unfold bestEffortRevert
  rw [updatePlanStatus_ok store u p .ACTIVE ts h]

/-- Claim C8: a failed event publish never rolls back the primary state
transition it announces. (1) If the EXECUTION_STARTED publish fails, the
→EXECUTING write persists (no transaction is recorded, the task is
signalled failed). (2) If the EXECUTION_COMPLETED publish fails after a
successful purchase, the transaction insert and the reschedule
(ACTIVE, new nextExecutionTime) persist. (3) If the EXECUTION_FAILED
publish fails after a failed purchase, the FAILED write and the transaction
insert persist. (4) If the max-retries EXECUTION_FAILED publish fails, the
FAILED write and the synthetic transaction persist. (5) The one exception
is the Scanner's pre-dispatch path: an SQS-send or publish failure there
triggers the best-effort compensating rollback of the plan status to
ACTIVE, and the plan's processing rejects. -/
theorem C8_publish_failure_isolation :
    (∀ (env : ExecutorEnv) (s : ExecutorState) (ev : SchedulerExecutionEvent)
       (plan : SavingsPlan),
      ev.attemptCount < env.maxRetries →
      getSavingsPlan s.plans ev.userId ev.planId = some plan →
      env.pubFails .EXECUTION_STARTED = true →
      (∀ r ∈ (processExecutionEvent env s ev).plans,
        planKeyMatches ev.userId ev.planId r = true →
          r.status = SavingsPlanStatus.EXECUTING) ∧
      (processExecutionEvent env s ev).txns = s.txns ∧
      (processExecutionEvent env s ev).thrown = some .publishFailed) ∧
    (∀ (env : ExecutorEnv) (s : ExecutorState) (ev : SchedulerExecutionEvent)
       (plan : SavingsPlan),
      ev.attemptCount < env.maxRetries →
      getSavingsPlan s.plans ev.userId ev.planId = some plan →
      env.purchaseResult.success = true →
      s.txns.any (txnKeyMatches plan.userId env.freshTransactionId) = false →
      env.pubFails .EXECUTION_STARTED = false →
      env.pubFails .EXECUTION_COMPLETED = true →
      (∃ txn, (processExecutionEvent env s ev).txns = s.txns ++ [txn]) ∧
      (∀ r ∈ (processExecutionEvent env s ev).plans,
        planKeyMatches ev.userId ev.planId r = true →
          r.status = SavingsPlanStatus.ACTIVE ∧
          r.nextExecutionTime = calculateNextExecutionTime plan.frequency env.nowMs) ∧
      (processExecutionEvent env s ev).thrown = some .publishFailed) ∧
    (∀ (env : ExecutorEnv) (s : ExecutorState) (ev : SchedulerExecutionEvent)
       (plan : SavingsPlan),
      ev.attemptCount < env.maxRetries →
      getSavingsPlan s.plans ev.userId ev.planId = some plan →
      env.purchaseResult.success = false →
      s.txns.any (txnKeyMatches plan.userId env.freshTransactionId) = false →
      env.pubFails .EXECUTION_STARTED = false →
      env.pubFails .EXECUTION_FAILED = true →
      (∃ txn, (processExecutionEvent env s ev).txns = s.txns ++ [txn]) ∧
      (∀ r ∈ (processExecutionEvent env s ev).plans,
        planKeyMatches ev.userId ev.planId r = true →
          r.status = SavingsPlanStatus.FAILED) ∧
      (processExecutionEvent env s ev).thrown = some .publishFailed) ∧
    (∀ (env : ExecutorEnv) (s : ExecutorState) (ev : SchedulerExecutionEvent)
       (plan : SavingsPlan),
      getSavingsPlan s.plans ev.userId ev.planId = some plan →
      s.txns.any (txnKeyMatches plan.userId env.freshTransactionId) = false →
      env.pubFails .EXECUTION_FAILED = true →
      (∃ txn, (handleMaxRetries env s ev).txns = s.txns ++ [txn]) ∧
      (∀ r ∈ (handleMaxRetries env s ev).plans,
        planKeyMatches ev.userId ev.planId r = true →
          r.status = SavingsPlanStatus.FAILED) ∧
      (handleMaxRetries env s ev).thrown = some .publishFailed) ∧
    (∀ (env : ScannerEnv) (s : ScanState) (plan : SavingsPlan),
      s.store.any (planKeyMatches plan.userId plan.planId) = true →
      (env.sqsFails plan.userId plan.planId = true ∨
       (env.sqsFails plan.userId plan.planId = false ∧
        env.publishFails plan.userId plan.planId = true)) →
      (∀ r ∈ (processPlanForExecution env s plan).1.store,
        planKeyMatches plan.userId plan.planId r = true →
          r.status = SavingsPlanStatus.ACTIVE) ∧
      (processPlanForExecution env s plan).2.isSome = true) := by
  refine ⟨?_, ?_, ?_, ?_, ?_⟩
  · intro env s ev plan hattempt hget hpubS
    obtain ⟨hu, hp, hany, hmem⟩ := getSavingsPlan_key s.plans ev.userId ev.planId plan hget
    have hany2 : s.plans.any (planKeyMatches plan.userId plan.planId) = true := by
      rw [hu, hp]
      exact hany
    unfold processExecutionEvent
    rw [if_neg (by omega)]
    rw [hget]
    dsimp only
    rw [updatePlanStatus_ok s.plans plan.userId plan.planId .EXECUTING env.nowIso hany2]
    dsimp only
    rw [publishEvent_fail env s.events .EXECUTION_STARTED _ hpubS]
    dsimp only
    refine ⟨?_, rfl, rfl⟩
    rw [← hu, ← hp]
    exact status_after_setStatus_map s.plans plan.userId plan.planId .EXECUTING env.nowIso
  · intro env s ev plan hattempt hget hsucc hfresh hpubS hpubC
    obtain ⟨hu, hp, hany, hmem⟩ := getSavingsPlan_key s.plans ev.userId ev.planId plan hget
    have hany2 : s.plans.any (planKeyMatches plan.userId plan.planId) = true := by
      rw [hu, hp]
      exact hany
    unfold processExecutionEvent
    rw [if_neg (by omega)]
    rw [hget]
    dsimp only
    rw [hsucc]
    simp only [eq_self_iff_true, if_true]
    rw [updatePlanStatus_ok s.plans plan.userId plan.planId .EXECUTING env.nowIso hany2]
    dsimp only
    rw [publishEvent_ok env s.events .EXECUTION_STARTED _ hpubS]
    dsimp only
    rw [recordTransaction_fresh s.txns _ hfresh]
    dsimp only
    rw [updatePlanWithNextExecution_ok _ plan.userId plan.planId _ env.nowIso
      (by rw [any_key_map_setStatus]; exact hany2)]
    dsimp only
    rw [publishEvent_fail env _ .EXECUTION_COMPLETED _ hpubC]
    dsimp only
    refine ⟨⟨_, rfl⟩, ?_, rfl⟩
    rw [← hu, ← hp]
    exact fields_after_setNext_map _ plan.userId plan.planId _ env.nowIso
  · intro env s ev plan hattempt hget hfail hfresh hpubS hpubF
    obtain ⟨hu, hp, hany, hmem⟩ := getSavingsPlan_key s.plans ev.userId ev.planId plan hget
    have hany2 : s.plans.any (planKeyMatches plan.userId plan.planId) = true := by
      rw [hu, hp]
      exact hany
    unfold processExecutionEvent
    rw [if_neg (by omega)]
    rw [hget]
    dsimp only
    rw [hfail]
    simp only [Bool.false_eq_true, if_false]
    rw [updatePlanStatus_ok s.plans plan.userId plan.planId .EXECUTING env.nowIso hany2]
    dsimp only
    rw [publishEvent_ok env s.events .EXECUTION_STARTED _ hpubS]
    dsimp only
    rw [recordTransaction_fresh s.txns _ hfresh]
    dsimp only
    rw [updatePlanStatus_ok _ plan.userId plan.planId .FAILED env.nowIso
      (by rw [any_key_map_setStatus]; exact hany2)]
    dsimp only
    rw [publishEvent_fail env _ .EXECUTION_FAILED _ hpubF]
    dsimp only
    refine ⟨⟨_, rfl⟩, ?_, rfl⟩
    rw [← hu, ← hp]
    exact status_after_setStatus_map _ plan.userId plan.planId .FAILED env.nowIso
  · intro env s ev plan hget hfresh hpubF
    obtain ⟨hu, hp, hany, hmem⟩ := getSavingsPlan_key s.plans ev.userId ev.planId plan hget
    have hany2 : s.plans.any (planKeyMatches plan.userId plan.planId) = true := by
      rw [hu, hp]
      exact hany
    unfold handleMaxRetries
    rw [hget]
    dsimp only
    rw [updatePlanStatus_ok s.plans plan.userId plan.planId .FAILED env.nowIso hany2]
    dsimp only
    rw [recordTransaction_fresh s.txns _ hfresh]
    dsimp only
    rw [publishEvent_fail env s.events .EXECUTION_FAILED _ hpubF]
    dsimp only
    refine ⟨⟨_, rfl⟩, ?_, rfl⟩
    rw [← hu, ← hp]
    exact status_after_setStatus_map s.plans plan.userId plan.planId .FAILED env.nowIso
  · intro env s plan hany hfailure
    have hupd : updatePlanStatus s.store plan.userId plan.planId .PENDING_EXECUTION
        env.currentTime = .ok (s.store.map fun r =>
          if planKeyMatches plan.userId plan.planId r then
            { r with status := .PENDING_EXECUTION, updatedAt := env.currentTime } else r) :=
      updatePlanStatus_ok s.store plan.userId plan.planId .PENDING_EXECUTION
        env.currentTime hany
    have hany3 : (s.store.map fun r =>
        if planKeyMatches plan.userId plan.planId r then
          { r with status := .PENDING_EXECUTION, updatedAt := env.currentTime } else r).any
        (planKeyMatches plan.userId plan.planId) = true := by
      rw [any_key_map_setStatus]
      exact hany
    rcases hfailure with hsq | ⟨hsq, hpb⟩
    · unfold processPlanForExecution
      rw [hupd]
      dsimp only
      rw [hsq]
      simp only [eq_self_iff_true, if_true]
      rw [bestEffortRevert_present _ plan.userId plan.planId env.currentTime hany3]
      exact ⟨status_after_setStatus_map _ plan.userId plan.planId .ACTIVE env.currentTime,
        rfl⟩
    · unfold processPlanForExecution
      rw [hupd]
      dsimp only
      rw [hsq]
      simp only [Bool.false_eq_true, if_false]
      rw [hpb]
      simp only [eq_self_iff_true, if_true]
      rw [bestEffortRevert_present _ plan.userId plan.planId env.currentTime hany3]
      exact ⟨status_after_setStatus_map _ plan.userId plan.planId .ACTIVE env.currentTime,
        rfl⟩

/-- Executor environment failing every publish. -/
def executorEnvPubFail : ExecutorEnv :=
  { maxRetries := 3, maxRetriesStr := "3", nowMs := 1706745600000,
    nowIso := "2024-02-01T00:00:00.000Z", stage := "dev",
    freshTransactionId := "txn-1",
    purchaseResult := { success := false,
                        errorMessage := some "Exchange API temporary error" },
    pubFails := fun _ => true }

/-- Scanner environment whose SQS sends fail. -/
def scannerEnvSqsFail : ScannerEnv :=
  { now := 200, batchSize := 25, currentTime := "2024-02-01T00:00:00.000Z",
    execId := fun _ _ => "exec-1",
    deletedBetween := fun _ _ => false,
    sqsFails := fun _ _ => true,
    publishFails := fun _ _ => false }

/-- Witness for C8: the EXECUTION_STARTED publish failure leaves the
EXECUTING write in place at a concrete input, and an SQS failure in the
Scanner triggers the compensating rollback with a rejection. -/
theorem C8_publish_failure_isolation_witness :
    ((processExecutionEvent executorEnvPubFail
        { plans := [planActive], txns := [], events := [] } taskFirstAttempt).txns = [] ∧
     (processExecutionEvent executorEnvPubFail
        { plans := [planActive], txns := [], events := [] } taskFirstAttempt).thrown =
       some .publishFailed) ∧
    (processPlanForExecution scannerEnvSqsFail
        { store := [planActive], queue := [], events := [] } planActive).2.isSome = true :=
  have h1 := C8_publish_failure_isolation.1 executorEnvPubFail
    { plans := [planActive], txns := [], events := [] } taskFirstAttempt planActive
    (by decide) (by decide) rfl
  have h5 := C8_publish_failure_isolation.2.2.2.2 scannerEnvSqsFail
    { store := [planActive], queue := [], events := [] } planActive
    (by decide) (Or.inl rfl)
  ⟨⟨h1.2.1, h1.2.2⟩, h5.2⟩
